import Mathlib

/-!
Shallow embedding of the `page-backend` repository (Go, package `handler`):
the Google-Drive catalog endpoint, in its two variants:

* the extended variant, `src/api/index.go` (video files and `metadata.docx`
  are recognized; `WriteHeader` is called before the body is encoded);
* the basic variant, `src/unnamed/part_001` (images and `metadata.txt` only;
  the body is encoded before `WriteHeader` is called).

Go machine-level conventions captured here:

* `strings.TrimSpace` trims the Unicode white-space characters recognized by
  `unicode.IsSpace`; `goIsSpace` lists that set explicitly.
* `strings.ToLower` is modelled on the ASCII range (the only range the
  repository's reserved keys and file names exercise).
* `strings.Split(s, "\n")` returns one (possibly empty) piece per segment and
  never returns an empty list; `strings.SplitN(s, ":", 2)` yields two pieces
  exactly when `s` contains a colon, splitting at the first one.
* a Go `map[string]string` is modelled as `String → Option String`, with
  zero-value lookup `mapGetD` returning `""` for an absent key.
* `net/http`'s `ResponseWriter` sends the header on the first of
  `WriteHeader`/`Write`: a `Write` first marks the status `200` if none was
  set, and a `WriteHeader` after anything was written is ignored.  The model
  `RW` keeps `status : Option Nat` (`none` until the header is sent) and the
  list of JSON-encoded values written so far.
-/

namespace PageBackend

/-- The white-space set of Go's `unicode.IsSpace`, used by `strings.TrimSpace`:
`'\t'`, `'\n'`, `'\v'`, `'\f'`, `'\r'`, `' '`, U+0085, U+00A0, and the Unicode
`White_Space` code points above Latin-1. -/
def goIsSpace (c : Char) : Bool :=
  c = ' ' || c = '\t' || c = '\n' || c = '\x0b' || c = '\x0c' || c = '\r' ||
  c.toNat = 0x85 || c.toNat = 0xA0 ||
  c.toNat = 0x1680 || (0x2000 ≤ c.toNat && c.toNat ≤ 0x200a) ||
  c.toNat = 0x2028 || c.toNat = 0x2029 || c.toNat = 0x202f ||
  c.toNat = 0x205f || c.toNat = 0x3000

/-- `strings.TrimSpace`: drop leading and trailing white space. -/
def goTrimSpace (s : String) : String :=
  String.mk (((s.toList.dropWhile goIsSpace).reverse.dropWhile goIsSpace).reverse)

/-- Split a character list at every `'\n'`; one piece per segment, so the
result is never empty (`strings.Split(s, "\n")` on the underlying bytes). -/
def splitNlChars : List Char → List (List Char)
  | [] => [[]]
  | c :: cs =>
    if c = '\n' then [] :: splitNlChars cs
    else
      match splitNlChars cs with
      | [] => [[c]]
      | h :: t => (c :: h) :: t

/-- `strings.Split(content, "\n")`. -/
def goSplitLines (s : String) : List String :=
  (splitNlChars s.toList).map String.mk

/-- Split a character list at the first `':'`, when one occurs. -/
def splitColonChars : List Char → Option (List Char × List Char)
  | [] => none
  | c :: cs =>
    if c = ':' then some ([], cs)
    else (splitColonChars cs).map (fun p => (c :: p.1, p.2))

/-- `strings.SplitN(line, ":", 2)`: `some (before, after)` exactly when the
line contains a colon (the case `len(parts) == 2` in the source), otherwise
`none` (the one-part case). -/
def goSplitN2Colon (s : String) : Option (String × String) :=
  (splitColonChars s.toList).map (fun p => (String.mk p.1, String.mk p.2))

/-- `strings.ToLower` on the ASCII range. -/
def goToLowerChar (c : Char) : Char :=
  if 'A' ≤ c && c ≤ 'Z' then Char.ofNat (c.toNat + 32) else c

/-- `strings.ToLower` (ASCII range; the repository's keys and reserved file
names are ASCII). -/
def goToLower (s : String) : String :=
  String.mk (s.toList.map goToLowerChar)

/-- `strings.HasSuffix`. -/
def goHasSuffix (s suffix : String) : Bool :=
  decide (s.toList.reverse.take suffix.toList.length = suffix.toList.reverse)

/-- Model of Go's `map[string]string`: `none` for an absent key. -/
def GoMap : Type := String → Option String

/-- `make(map[string]string)`. -/
def mapEmpty : GoMap := fun _ => none

/-- `m[k] = v` (map assignment overwrites any prior value for `k`). -/
def mapInsert (m : GoMap) (k v : String) : GoMap :=
  fun k' => if k' = k then some v else m k'

/-- Go map indexing `m[k]`, which yields the zero value `""` for an absent
key. -/
def mapGetD (m : GoMap) (k : String) : String :=
  (m k).getD ""

/-- One iteration of the `parseMetadata` loop (`src/api/index.go:252-264`,
identical in the basic variant): trim the line, skip it when blank, split at
the first colon, and when two parts result store lower-cased-trimmed key to
trimmed value. -/
def parseMetadataStep (m : GoMap) (line : String) : GoMap :=
  let t := goTrimSpace line
  if t = "" then m
  else
    match goSplitN2Colon t with
    | some (k, v) => mapInsert m (goToLower (goTrimSpace k)) (goTrimSpace v)
    | none => m

/-- `parseMetadata` (`src/api/index.go:248-267`, byte-identical in
`src/unnamed/part_001:192-211`): split into lines and fold the per-line rule
over an initially empty map. -/
def parseMetadata (content : String) : GoMap :=
  (goSplitLines content).foldl parseMetadataStep mapEmpty

/-! ## Drive model and item classification -/

/-- A file entry returned by the Drive listing call (fields `id`, `name`,
`mimeType` of the `Fields("files(id, name, mimeType, ...)")` projection). -/
structure DriveFile where
  id : String
  name : String
  mimeType : String
deriving DecidableEq, Repr

/-- An item record of the extended variant (`src/api/index.go:17-24`):
`title`, `subtitle`, `description`, `code`, `imageUrls`, `videoUrls`. -/
structure Item where
  title : String
  subtitle : String
  description : String
  code : String
  imageUrls : List String
  videoUrls : List String
deriving DecidableEq, Repr

/-- An item record of the basic variant (`src/unnamed/part_001:16-22`): no
`videoUrls` field. -/
structure ItemB where
  title : String
  subtitle : String
  description : String
  code : String
  imageUrls : List String
deriving DecidableEq, Repr

/-- Forget the extended-only `videoUrls` field. -/
def dropVideos (it : Item) : ItemB :=
  { title := it.title, subtitle := it.subtitle, description := it.description,
    code := it.code, imageUrls := it.imageUrls }

/-- `isImage` (`src/api/index.go:163-178`, byte-identical in the basic
variant): membership in the six-element image MIME set. -/
def isImage (mimeType : String) : Bool :=
  mimeType = "image/jpeg" || mimeType = "image/jpg" || mimeType = "image/png" ||
  mimeType = "image/gif" || mimeType = "image/webp" || mimeType = "image/bmp"

/-- `isVideo` (`src/api/index.go:180-198`, extended variant only):
membership in the nine-element video MIME set. -/
def isVideo (mimeType : String) : Bool :=
  mimeType = "video/mp4" || mimeType = "video/mpeg" ||
  mimeType = "video/quicktime" || mimeType = "video/x-msvideo" ||
  mimeType = "video/x-ms-wmv" || mimeType = "video/webm" ||
  mimeType = "video/ogg" || mimeType = "video/3gpp" || mimeType = "video/x-flv"

/-- `getImageURL` (`src/api/index.go:200-203`, identical in the basic
variant): `fmt.Sprintf` of the public-view template around the file id. -/
def getImageURL (fileID : String) : String :=
  "https://drive.google.com/uc?export=view&id=" ++ fileID

/-- `getVideoURL` (`src/api/index.go:205-208`, extended variant only):
`fmt.Sprintf` of the preview-player template around the file id. -/
def getVideoURL (fileID : String) : String :=
  "https://drive.google.com/file/d/" ++ fileID ++ "/preview"

/-- The reserved-metadata-filename test of the extended variant
(`file.Name == "metadata.txt" || file.Name == "metadata.docx"`,
`src/api/index.go:129`). -/
def reservedNameEx (n : String) : Bool :=
  n = "metadata.txt" || n = "metadata.docx"

/-- The reserved-metadata-filename test of the basic variant
(`file.Name == "metadata.txt"`, `src/unnamed/part_001:126`). -/
def reservedNameB (n : String) : Bool :=
  n = "metadata.txt"

/-- The Drive service handle, as the three remote operations the repository
performs, plus the external `pandoc` conversion step.  `listChildFolders`
stands for `Files.List` with the child-folder query on a folder id;
`listFiles` for `Files.List` with the all-files query; `download` for
`Files.Get(id).Download()` read to a string.  `docxToText` stands for the
temp-file write / `pandoc -t plain` / temp-file removal sequence of
`readMetadata` (`src/api/index.go:226-239`); its single error collapses the
temp-file-write and converter failure points of that sequence. -/
structure DriveService where
  listChildFolders : String → Except String (List DriveFile)
  listFiles : String → Except String (List DriveFile)
  download : String → Except String String
  docxToText : String → Except String String

/-- The zero item of the extended variant's `processItemFolder`
(`src/api/index.go:112-115`): empty strings, `ImageURLs` and `VideoURLs`
initialized to empty slices. -/
def itemZero : Item :=
  { title := "", subtitle := "", description := "", code := "",
    imageUrls := [], videoUrls := [] }

/-- The zero item of the basic variant (`src/unnamed/part_001:111-113`). -/
def itemZeroB : ItemB :=
  { title := "", subtitle := "", description := "", code := "",
    imageUrls := [] }

/-- One iteration of the extended variant's file loop
(`src/api/index.go:127-146`): a reserved name records the metadata candidate
and `continue`s; otherwise an image MIME appends an image URL and a video
MIME appends a video URL.  The accumulator carries the item under
construction and the `metadataFileID`/`metadataFileName` locals. -/
def stepEx (acc : Item × String × String) (f : DriveFile) : Item × String × String :=
  let (item, _mId, _mName) := acc
  if reservedNameEx f.name then (item, f.id, f.name)
  else
    let item1 := if isImage f.mimeType then
        { item with imageUrls := item.imageUrls ++ [getImageURL f.id] } else item
    let item2 := if isVideo f.mimeType then
        { item1 with videoUrls := item1.videoUrls ++ [getVideoURL f.id] } else item1
    (item2, acc.2)

/-- One iteration of the basic variant's file loop
(`src/unnamed/part_001:124-137`): only `metadata.txt` is reserved and only
images are classified. -/
def stepB (acc : ItemB × String) (f : DriveFile) : ItemB × String :=
  let (item, _mId) := acc
  if reservedNameB f.name then (item, f.id)
  else
    let item1 := if isImage f.mimeType then
        { item with imageUrls := item.imageUrls ++ [getImageURL f.id] } else item
    (item1, acc.2)

/-- The extended variant's file loop over a listing. -/
def processFilesEx (files : List DriveFile) : Item × String × String :=
  files.foldl stepEx (itemZero, "", "")

/-- The basic variant's file loop over a listing. -/
def processFilesB (files : List DriveFile) : ItemB × String :=
  files.foldl stepB (itemZeroB, "")

/-- `readMetadata` of the extended variant (`src/api/index.go:210-246`):
download the file; when the lower-cased name ends in `.docx`, run the
external conversion (`docxToText`) first, wrapping its failure in the
`error running pandoc:` message; parse the resulting text. -/
def readMetadataEx (srv : DriveService) (fileID fileName : String) :
    Except String GoMap :=
  match srv.download fileID with
  | .error e => .error e
  | .ok body =>
    if goHasSuffix (goToLower fileName) ".docx" then
      match srv.docxToText body with
      | .error e => .error ("error running pandoc: " ++ e)
      | .ok content => .ok (parseMetadata content)
    else
      .ok (parseMetadata body)

/-- `readMetadata` of the basic variant (`src/unnamed/part_001:177-190`):
download and parse. -/
def readMetadataB (srv : DriveService) (fileID : String) :
    Except String GoMap :=
  match srv.download fileID with
  | .error e => .error e
  | .ok body => .ok (parseMetadata body)

/-- `processItemFolder` of the extended variant (`src/api/index.go:111-161`).
Like the Go function it returns the partially built item alongside the error
value; the caller drops the item when the error is not `none`. -/
def processItemFolderEx (srv : DriveService) (folderID _folderName : String) :
    Item × Option String :=
  match srv.listFiles folderID with
  | .error e => (itemZero, some ("error listing files in folder: " ++ e))
  | .ok files =>
    let (item, mId, mName) := processFilesEx files
    if mId ≠ "" then
      match readMetadataEx srv mId mName with
      | .error e => (item, some ("error reading metadata: " ++ e))
      | .ok md =>
        ({ item with title := mapGetD md "title", subtitle := mapGetD md "subtitle",
                     description := mapGetD md "description", code := mapGetD md "code" },
         none)
    else (item, none)

/-- `processItemFolder` of the basic variant (`src/unnamed/part_001:110-152`). -/
def processItemFolderB (srv : DriveService) (folderID _folderName : String) :
    ItemB × Option String :=
  match srv.listFiles folderID with
  | .error e => (itemZeroB, some ("error listing files in folder: " ++ e))
  | .ok files =>
    let (item, mId) := processFilesB files
    if mId ≠ "" then
      match readMetadataB srv mId with
      | .error e => (item, some ("error reading metadata: " ++ e))
      | .ok md =>
        ({ item with title := mapGetD md "title", subtitle := mapGetD md "subtitle",
                     description := mapGetD md "description", code := mapGetD md "code" },
         none)
    else (item, none)

/-- `getItems` of the extended variant (`src/api/index.go:87-109`): list the
child folders (failure aborts with the `error listing folders:` message);
process each child in order, appending only the items whose processing
reported no error. -/
def getItemsStepEx (srv : DriveService) (items : List Item) (f : DriveFile) :
    List Item :=
  match processItemFolderEx srv f.id f.name with
  | (item, none) => items ++ [item]
  | (_, some _) => items

def getItemsEx (srv : DriveService) (rootFolderID : String) :
    Except String (List Item) :=
  match srv.listChildFolders rootFolderID with
  | .error e => .error ("error listing folders: " ++ e)
  | .ok folders => .ok (folders.foldl (getItemsStepEx srv) [])

/-- `getItems` of the basic variant (`src/unnamed/part_001:86-108`). -/
def getItemsStepB (srv : DriveService) (items : List ItemB) (f : DriveFile) :
    List ItemB :=
  match processItemFolderB srv f.id f.name with
  | (item, none) => items ++ [item]
  | (_, some _) => items

def getItemsB (srv : DriveService) (rootFolderID : String) :
    Except String (List ItemB) :=
  match srv.listChildFolders rootFolderID with
  | .error e => .error ("error listing folders: " ++ e)
  | .ok folders => .ok (folders.foldl (getItemsStepB srv) [])

/-! ## HTTP handler layer -/

/-- The top-level response value of the extended variant
(`src/api/index.go:26-29`).  `items` carries the Go `Items []Item` slice
(`[]` standing for the nil slice on every path this program reaches with an
empty slice); `error` is the `Error string` field, `""` when unset. -/
structure ResponseEx where
  items : List Item
  error : String
deriving DecidableEq, Repr

/-- The top-level response value of the basic variant
(`src/unnamed/part_001:24-27`). -/
structure ResponseB where
  items : List ItemB
  error : String
deriving DecidableEq, Repr

/-- Forget the `videoUrls` field of every item of a response. -/
def dropVideosResponse (r : ResponseEx) : ResponseB :=
  { items := r.items.map dropVideos, error := r.error }

/-- The part of an incoming request the handlers inspect: the method and the
`folderId` query parameter (`""` when absent, as `URL.Query().Get`
returns). -/
structure Request where
  method : String
  folderIdParam : String
deriving DecidableEq, Repr

/-- The ambient environment: the two environment variables (`""` when
unset, as `os.Getenv` returns) and the `drive.NewService` constructor, which
turns the credentials blob into a service handle or fails. -/
structure World where
  envFolderId : String
  envCredentials : String
  newService : String → Except String DriveService

/-- The state of a `net/http` `ResponseWriter`, specialized to the JSON
values this program writes: `status` is the status line actually sent
(`none` until the header goes out), `body` the sequence of values passed to
`json.NewEncoder(w).Encode`. -/
structure RW (α : Type) where
  status : Option Nat
  body : List α
deriving Repr

/-- The fresh writer handed to the handler. -/
def rwInit {α : Type} : RW α := { status := none, body := [] }

/-- `w.WriteHeader(code)`: sends the header with `code` unless a header was
already sent, in which case it is ignored (`net/http` logs a superfluous-call
diagnostic and does nothing). -/
def RW.goWriteHeader {α : Type} (rw : RW α) (code : Nat) : RW α :=
  match rw.status with
  | some _ => rw
  | none => { rw with status := some code }

/-- `json.NewEncoder(w).Encode(v)`: a body write, which first sends an
implicit `200` header when none was sent yet. -/
def RW.goEncode {α : Type} (rw : RW α) (v : α) : RW α :=
  match rw.status with
  | some _ => { rw with body := rw.body ++ [v] }
  | none => { status := some 200, body := rw.body ++ [v] }

/-- The status code on the wire once the handler returns (`200` if nothing
forced the header out earlier, which no path of these handlers leaves
reachable). -/
def RW.finalStatus {α : Type} (rw : RW α) : Nat :=
  rw.status.getD 200

/-- `Handler` of the extended variant (`src/api/index.go:32-85`), CORS
header emission elided: answer `OPTIONS` with `200`; reject non-`GET` with
`405` (header first, then body); resolve the root folder id from the query
parameter, falling back to the environment; fail `400` when both are empty
and `500` when credentials are missing or the client cannot be built; list
and process the items, failing `500` on a listing error and encoding the
item list otherwise. -/
def handlerEx (w : World) (r : Request) : RW ResponseEx :=
  if r.method = "OPTIONS" then rwInit.goWriteHeader 200
  else if r.method ≠ "GET" then
    (rwInit.goWriteHeader 405).goEncode { items := [], error := "Method not allowed" }
  else
    let rootFolderID := if r.folderIdParam = "" then w.envFolderId else r.folderIdParam
    if rootFolderID = "" then
      (rwInit.goWriteHeader 400).goEncode { items := [], error := "Folder ID is required" }
    else if w.envCredentials = "" then
      (rwInit.goWriteHeader 500).goEncode
        { items := [], error := "Google credentials not configured" }
    else
      match w.newService w.envCredentials with
      | .error e =>
        (rwInit.goWriteHeader 500).goEncode
          { items := [], error := "Unable to create Drive client: " ++ e }
      | .ok srv =>
        match getItemsEx srv rootFolderID with
        | .error e => (rwInit.goWriteHeader 500).goEncode { items := [], error := e }
        | .ok items => rwInit.goEncode { items := items, error := "" }

/-- `Handler` of the basic variant (`src/unnamed/part_001:30-84`): the same
control flow, against the basic item pipeline, except that on the `405`,
`400` and `500` paths the body is encoded BEFORE `WriteHeader` is called, so
the implicit `200` header of the body write is what actually goes out
(`getEnv(key, "")` coincides with `os.Getenv(key)`). -/
def handlerB (w : World) (r : Request) : RW ResponseB :=
  if r.method = "OPTIONS" then rwInit.goWriteHeader 200
  else if r.method ≠ "GET" then
    (rwInit.goEncode { items := [], error := "Method not allowed" }).goWriteHeader 405
  else
    let rootFolderID := if r.folderIdParam = "" then w.envFolderId else r.folderIdParam
    if rootFolderID = "" then
      (rwInit.goEncode { items := [], error := "Folder ID is required" }).goWriteHeader 400
    else if w.envCredentials = "" then
      (rwInit.goEncode
        { items := [], error := "Google credentials not configured" }).goWriteHeader 500
    else
      match w.newService w.envCredentials with
      | .error e =>
        (rwInit.goEncode
          { items := [], error := "Unable to create Drive client: " ++ e }).goWriteHeader 500
      | .ok srv =>
        match getItemsB srv rootFolderID with
        | .error e =>
          (rwInit.goEncode { items := [], error := e }).goWriteHeader 500
        | .ok items => rwInit.goEncode { items := items, error := "" }

/-! ## The JSON bytes `encoding/json` puts on the wire

`json.NewEncoder` marshals struct fields in declaration order, appends a
newline, and escapes `<`, `>`, `&` (HTML escaping is on by default).  A nil
slice marshals as `null`, a non-nil empty slice as `[]`: in this program the
top-level `Items` slice is nil exactly when it is empty (`var items []Item`
grown by `append`, or the zero value of an error response), while
`ImageURLs`/`VideoURLs` are initialized non-nil, so `items` is rendered
`null` when empty and the URL lists are always rendered as arrays. -/

/-- One hexadecimal digit, lower case (`encoding/json`'s `hex` table). -/
def hexDigit (n : Nat) : Char :=
  if n < 10 then Char.ofNat (48 + n) else Char.ofNat (87 + n)

/-- Escape one character the way `encoding/json`'s string encoder does with
HTML escaping on. -/
def jsonEscapeChar (c : Char) : String :=
  if c = '"' then "\\\""
  else if c = '\\' then "\\\\"
  else if c = '\n' then "\\n"
  else if c = '\r' then "\\r"
  else if c = '\t' then "\\t"
  else if c = '<' then "\\u003c"
  else if c = '>' then "\\u003e"
  else if c = '&' then "\\u0026"
  else if c.toNat < 0x20 then
    String.mk ['\\', 'u', '0', '0', hexDigit (c.toNat / 16), hexDigit (c.toNat % 16)]
  else if c.toNat = 0x2028 then "\\u2028"
  else if c.toNat = 0x2029 then "\\u2029"
  else String.mk [c]

/-- A JSON string literal. -/
def jsonQuote (s : String) : String :=
  "\"" ++ String.join (s.toList.map jsonEscapeChar) ++ "\""

/-- A JSON array of string literals (the rendering of the always-non-nil
`ImageURLs`/`VideoURLs` slices). -/
def jsonStringArray (l : List String) : String :=
  "[" ++ String.intercalate "," (l.map jsonQuote) ++ "]"

/-- The marshalling of an extended-variant `Item`. -/
def encodeItemEx (it : Item) : String :=
  "\x7b\"title\":" ++ jsonQuote it.title ++
  ",\"subtitle\":" ++ jsonQuote it.subtitle ++
  ",\"description\":" ++ jsonQuote it.description ++
  ",\"code\":" ++ jsonQuote it.code ++
  ",\"imageUrls\":" ++ jsonStringArray it.imageUrls ++
  ",\"videoUrls\":" ++ jsonStringArray it.videoUrls ++ "\x7d"

/-- The marshalling of a basic-variant `Item` (no `videoUrls` field). -/
def encodeItemB (it : ItemB) : String :=
  "\x7b\"title\":" ++ jsonQuote it.title ++
  ",\"subtitle\":" ++ jsonQuote it.subtitle ++
  ",\"description\":" ++ jsonQuote it.description ++
  ",\"code\":" ++ jsonQuote it.code ++
  ",\"imageUrls\":" ++ jsonStringArray it.imageUrls ++ "\x7d"

/-- The bytes `json.NewEncoder(w).Encode` writes for an extended-variant
`Response`: `items` (`null` for the nil slice), `error` only when non-empty
(`omitempty`), and the encoder's trailing newline. -/
def encodeResponseEx (r : ResponseEx) : String :=
  "\x7b\"items\":" ++
  (if r.items.isEmpty then "null"
   else "[" ++ String.intercalate "," (r.items.map encodeItemEx) ++ "]") ++
  (if r.error = "" then "" else ",\"error\":" ++ jsonQuote r.error) ++
  "\x7d\n"

/-- The bytes written for a basic-variant `Response`. -/
def encodeResponseB (r : ResponseB) : String :=
  "\x7b\"items\":" ++
  (if r.items.isEmpty then "null"
   else "[" ++ String.intercalate "," (r.items.map encodeItemB) ++ "]") ++
  (if r.error = "" then "" else ",\"error\":" ++ jsonQuote r.error) ++
  "\x7d\n"

/-- The full body bytes an extended-variant handler run puts on the wire. -/
def bodyBytesEx (rw : RW ResponseEx) : String :=
  String.join (rw.body.map encodeResponseEx)

/-- The full body bytes a basic-variant handler run puts on the wire. -/
def bodyBytesB (rw : RW ResponseB) : String :=
  String.join (rw.body.map encodeResponseB)

/-! ## Derived definitions used by the statements -/

/-- The per-line contribution to a given key, written from the claim's
description of the parser: a line blank after trimming, or without a colon,
contributes nothing; otherwise the line contributes its trimmed value
exactly when its lower-cased trimmed key is the key asked about. -/
def claimContribution (line k : String) : Option String :=
  let t := goTrimSpace line
  if t = "" then none
  else
    match goSplitN2Colon t with
    | some (a, b) =>
      if goToLower (goTrimSpace a) = k then some (goTrimSpace b) else none
    | none => none

/-- `some v` when the first option is `some v`, the fallback otherwise. -/
def orO (o d : Option String) : Option String :=
  match o with
  | some v => some v
  | none => d

/-- The image URLs a listing yields: one per file that is not
metadata-named and has an image MIME type, in listing order. -/
def imgUrlsOfEx (files : List DriveFile) : List String :=
  (files.filter (fun f => !reservedNameEx f.name && isImage f.mimeType)).map
    (fun f => getImageURL f.id)

/-- The video URLs a listing yields in the extended variant. -/
def vidUrlsOfEx (files : List DriveFile) : List String :=
  (files.filter (fun f => !reservedNameEx f.name && isVideo f.mimeType)).map
    (fun f => getVideoURL f.id)

/-- The image URLs a listing yields in the basic variant (only
`metadata.txt` is reserved there). -/
def imgUrlsOfB (files : List DriveFile) : List String :=
  (files.filter (fun f => !reservedNameB f.name && isImage f.mimeType)).map
    (fun f => getImageURL f.id)

/-- The `(metadataFileID, metadataFileName)` pair the extended loop leaves
behind, starting from `p`. -/
def metaSelEx (files : List DriveFile) (p : String × String) : String × String :=
  files.foldl (fun q f => if reservedNameEx f.name then (f.id, f.name) else q) p

/-- The `metadataFileID` the basic loop leaves behind, starting from `i`. -/
def metaSelB (files : List DriveFile) (i : String) : String :=
  files.foldl (fun q f => if reservedNameB f.name then f.id else q) i

/-- The item an extended-variant folder contributes to the result: its
processed item when processing reported no error, nothing otherwise. -/
def okItemEx (srv : DriveService) (f : DriveFile) : Option Item :=
  match processItemFolderEx srv f.id f.name with
  | (item, none) => some item
  | (_, some _) => none

/-- The item a basic-variant folder contributes to the result. -/
def okItemB (srv : DriveService) (f : DriveFile) : Option ItemB :=
  match processItemFolderB srv f.id f.name with
  | (item, none) => some item
  | (_, some _) => none

/-! ## Concrete fixtures used to instantiate the theorems -/

/-- The no-video-no-docx side condition on one service handle: every file
listing it can return holds no video-typed file and no file named
`metadata.docx`. -/
def SvcNoVideoNoDocx (srv : DriveService) : Prop :=
  ∀ fid files, srv.listFiles fid = .ok files →
    ∀ f ∈ files, isVideo f.mimeType = false ∧ f.name ≠ "metadata.docx"

/-- The no-video-no-docx side condition on the whole environment: it holds
of every service the environment can hand out. -/
def NoVideoNoDocx (w : World) : Prop :=
  ∀ creds srv, w.newService creds = .ok srv → SvcNoVideoNoDocx srv

/-- A folder listing with one image, one video and one PDF. -/
def filesMixed : List DriveFile :=
  [⟨"p1", "a.png", "image/png"⟩, ⟨"v1", "b.mp4", "video/mp4"⟩,
   ⟨"d1", "c.pdf", "application/pdf"⟩]

/-- A service whose single item folder lists `filesMixed` and has no
metadata file. -/
def svcMixed : DriveService where
  listChildFolders := fun _ => .ok [⟨"f1", "Item 1", "application/vnd.google-apps.folder"⟩]
  listFiles := fun _ => .ok filesMixed
  download := fun _ => .error "no metadata file"
  docxToText := fun _ => .error "unused"

/-- A folder listing bearing two files named `metadata.txt`. -/
def filesDupMeta : List DriveFile :=
  [⟨"m1", "metadata.txt", "text/plain"⟩, ⟨"p1", "a.png", "image/png"⟩,
   ⟨"m2", "metadata.txt", "text/plain"⟩]

/-- A service with duplicate metadata files whose download content tells the
two apart. -/
def svcDupMeta : DriveService where
  listChildFolders := fun _ => .ok [⟨"f1", "Item 1", "application/vnd.google-apps.folder"⟩]
  listFiles := fun _ => .ok filesDupMeta
  download := fun fid => if fid = "m2" then .ok "title: Second" else .ok "title: First"
  docxToText := fun _ => .error "unused"

/-- A root with three child folders where listing the second one fails. -/
def svcThreeFolders : DriveService where
  listChildFolders := fun _ => .ok
    [⟨"f1", "Item 1", "application/vnd.google-apps.folder"⟩,
     ⟨"f2", "Item 2", "application/vnd.google-apps.folder"⟩,
     ⟨"f3", "Item 3", "application/vnd.google-apps.folder"⟩]
  listFiles := fun fid =>
    if fid = "f2" then .error "quota exceeded"
    else .ok [⟨"p-" ++ fid, "a.png", "image/png"⟩]
  download := fun _ => .error "unused"
  docxToText := fun _ => .error "unused"

/-- A service whose root folder listing itself fails. -/
def svcRootFails : DriveService where
  listChildFolders := fun _ => .error "boom"
  listFiles := fun _ => .error "boom"
  download := fun _ => .error "boom"
  docxToText := fun _ => .error "boom"

/-- An environment whose credentials build `svcRootFails`. -/
def worldRootFails : World where
  envFolderId := "root"
  envCredentials := "cred"
  newService := fun _ => .ok svcRootFails

/-- An environment whose credentials build `svcThreeFolders`. -/
def worldThreeFolders : World where
  envFolderId := "root"
  envCredentials := "cred"
  newService := fun _ => .ok svcThreeFolders

/-- An environment with credentials but no default folder id; its service
constructor is never reached on the requests considered. -/
def worldNoFolder : World where
  envFolderId := ""
  envCredentials := "cred"
  newService := fun _ => .error "never reached"

/-- A working service with one item folder holding one image and one
`metadata.txt` file, and no video or docx anywhere. -/
def filesNoVideo : List DriveFile :=
  [⟨"p1", "a.png", "image/png"⟩, ⟨"m1", "metadata.txt", "text/plain"⟩]

/-- The service over `filesNoVideo`. -/
def svcNoVideo : DriveService where
  listChildFolders := fun _ => .ok [⟨"f1", "Item 1", "application/vnd.google-apps.folder"⟩]
  listFiles := fun _ => .ok filesNoVideo
  download := fun _ => .ok "title: T\ncode: C1"
  docxToText := fun _ => .error "unused"

/-- The environment around `svcNoVideo`. -/
def worldNoVideo : World where
  envFolderId := "root"
  envCredentials := "cred"
  newService := fun _ => .ok svcNoVideo

/-- A plain `GET` request with no `folderId` query parameter. -/
def reqGet : Request where
  method := "GET"
  folderIdParam := ""

/-! ## Metadata parser: last contribution wins -/


lemma getLast?_cons_eq {α : Type} (a : α) (xs : List α) :
    (a :: xs).getLast? = some (xs.getLast?.getD a) := by
  induction xs generalizing a with
  | nil => rfl
  | cons x t ih =>
    rw [List.getLast?_cons_cons, ih x]
    rfl

lemma parseMetadataStep_of_contribution_none {m : GoMap} {l k : String}
    (h : claimContribution l k = none) : parseMetadataStep m l k = m k := by
  unfold claimContribution at h
  unfold parseMetadataStep
  by_cases ht : goTrimSpace l = ""
  · simp [ht]
  · simp only [ht, if_false] at h ⊢
    cases hs : goSplitN2Colon (goTrimSpace l) with
    | none => simp [hs]
    | some p =>
      obtain ⟨a, b⟩ := p
      simp only [hs] at h ⊢
      by_cases hk : goToLower (goTrimSpace a) = k
      · simp [hk] at h
      · simp only [mapInsert]
        rw [if_neg (fun hkk => hk hkk.symm)]

lemma parseMetadataStep_of_contribution_some {m : GoMap} {l k v : String}
    (h : claimContribution l k = some v) : parseMetadataStep m l k = some v := by
  unfold claimContribution at h
  unfold parseMetadataStep
  by_cases ht : goTrimSpace l = ""
  · simp [ht] at h
  · simp only [ht, if_false] at h ⊢
    cases hs : goSplitN2Colon (goTrimSpace l) with
    | none => simp [hs] at h
    | some p =>
      obtain ⟨a, b⟩ := p
      simp only [hs] at h ⊢
      by_cases hk : goToLower (goTrimSpace a) = k
      · rw [if_pos hk] at h
        simp only [Option.some.injEq] at h
        simp [mapInsert, hk, h]
      · simp [hk] at h


lemma parseMetadata_foldl_pointwise (ls : List String) (m : GoMap) (k : String) :
    (ls.foldl parseMetadataStep m) k =
      orO ((ls.filterMap (fun l => claimContribution l k)).getLast?) (m k) := by
  induction ls generalizing m with
  | nil => rfl
  | cons l ls ih =>
    rw [List.foldl_cons, ih, List.filterMap_cons]
    cases hc : claimContribution l k with
    | none =>
      simp only [hc]
      rw [parseMetadataStep_of_contribution_none hc]
    | some v =>
      simp only [hc]
      rw [getLast?_cons_eq]
      rw [parseMetadataStep_of_contribution_some hc]
      cases hrest : (ls.filterMap (fun l => claimContribution l k)).getLast? with
      | none => simp [orO, hrest]
      | some v' => simp [orO, hrest]

/-- C1: `parseMetadata` maps each key to the trimmed value of the last line
contributing to it — the text is split into lines; blank-after-trim or
colon-free lines contribute nothing; every other line is split at the first
colon and stores lower-cased-trimmed key to trimmed value, a later line
overwriting an earlier one.  On `"title: A\nsubtitle: B\ntitle: C"` the map
sends `"title"` to `"C"` and `"subtitle"` to `"B"`.  The parser is a total
function, so it fails on no input. -/
theorem parseMetadata_last_contribution_wins :
    (∀ content k, parseMetadata content k =
      ((goSplitLines content).filterMap (fun l => claimContribution l k)).getLast?)
    ∧ parseMetadata "title: A\nsubtitle: B\ntitle: C" "title" = some "C"
    ∧ parseMetadata "title: A\nsubtitle: B\ntitle: C" "subtitle" = some "B" := by
  refine ⟨fun content k => ?_, by decide, by decide⟩
  unfold parseMetadata
  rw [parseMetadata_foldl_pointwise]
  cases ((goSplitLines content).filterMap (fun l => claimContribution l k)).getLast? with
  | none => rfl
  | some v => rfl

/-! ## Characterization of the file-classification loops -/


lemma foldl_stepEx_eq (files : List DriveFile) (it : Item) (mid mnm : String) :
    files.foldl stepEx (it, mid, mnm) =
      ({ it with imageUrls := it.imageUrls ++ imgUrlsOfEx files,
                 videoUrls := it.videoUrls ++ vidUrlsOfEx files },
       metaSelEx files (mid, mnm)) := by
  induction files generalizing it mid mnm with
  | nil => simp [imgUrlsOfEx, vidUrlsOfEx, metaSelEx]
  | cons f fs ih =>
    rw [List.foldl_cons]
    by_cases hr : reservedNameEx f.name
    · rw [show stepEx (it, mid, mnm) f = (it, f.id, f.name) by simp [stepEx, hr]]
      rw [ih]
      simp [imgUrlsOfEx, vidUrlsOfEx, metaSelEx, List.filter_cons, hr]
    · by_cases hi : isImage f.mimeType <;> by_cases hv : isVideo f.mimeType
      all_goals
        simp only [show stepEx (it, mid, mnm) f =
            (⟨it.title, it.subtitle, it.description, it.code,
              it.imageUrls ++ (if isImage f.mimeType then [getImageURL f.id] else []),
              it.videoUrls ++ (if isVideo f.mimeType then [getVideoURL f.id] else [])⟩,
             mid, mnm) by
          simp [stepEx, hr, hi, hv]]
        rw [ih]
        simp [imgUrlsOfEx, vidUrlsOfEx, metaSelEx, List.filter_cons, hr, hi, hv]

lemma foldl_stepB_eq (files : List DriveFile) (it : ItemB) (mid : String) :
    files.foldl stepB (it, mid) =
      ({ it with imageUrls := it.imageUrls ++ imgUrlsOfB files },
       metaSelB files mid) := by
  induction files generalizing it mid with
  | nil => simp [imgUrlsOfB, metaSelB]
  | cons f fs ih =>
    rw [List.foldl_cons]
    by_cases hr : reservedNameB f.name
    · rw [show stepB (it, mid) f = (it, f.id) by simp [stepB, hr]]
      rw [ih]
      simp [imgUrlsOfB, metaSelB, List.filter_cons, hr]
    · by_cases hi : isImage f.mimeType
      all_goals
        simp only [show stepB (it, mid) f =
            (⟨it.title, it.subtitle, it.description, it.code,
              it.imageUrls ++ (if isImage f.mimeType then [getImageURL f.id] else [])⟩,
             mid) by
          simp [stepB, hr, hi]]
        rw [ih]
        simp [imgUrlsOfB, metaSelB, List.filter_cons, hr, hi]

lemma processFilesEx_eq (files : List DriveFile) :
    processFilesEx files =
      ({ itemZero with imageUrls := imgUrlsOfEx files, videoUrls := vidUrlsOfEx files },
       metaSelEx files ("", "")) := by
  unfold processFilesEx
  rw [foldl_stepEx_eq]
  simp [itemZero]

lemma processFilesB_eq (files : List DriveFile) :
    processFilesB files =
      ({ itemZeroB with imageUrls := imgUrlsOfB files }, metaSelB files "") := by
  unfold processFilesB
  rw [foldl_stepB_eq]
  simp [itemZeroB]

lemma metaSelEx_eq_last (files : List DriveFile) (p : String × String) :
    metaSelEx files p =
      (match (files.filter (fun f => reservedNameEx f.name)).getLast? with
       | some f => (f.id, f.name)
       | none => p) := by
  induction files generalizing p with
  | nil => rfl
  | cons f fs ih =>
    by_cases hr : reservedNameEx f.name
    · rw [show metaSelEx (f :: fs) p = metaSelEx fs (f.id, f.name) by
        simp [metaSelEx, hr]]
      rw [ih]
      rw [List.filter_cons_of_pos (by simpa using hr), getLast?_cons_eq]
      cases (fs.filter (fun f => reservedNameEx f.name)).getLast? with
      | none => rfl
      | some g => rfl
    · rw [show metaSelEx (f :: fs) p = metaSelEx fs p by simp [metaSelEx, hr]]
      rw [ih, List.filter_cons_of_neg (by simpa using hr)]

lemma metaSelB_eq_last (files : List DriveFile) (i : String) :
    metaSelB files i =
      (match (files.filter (fun f => reservedNameB f.name)).getLast? with
       | some f => f.id
       | none => i) := by
  induction files generalizing i with
  | nil => rfl
  | cons f fs ih =>
    by_cases hr : reservedNameB f.name
    · rw [show metaSelB (f :: fs) i = metaSelB fs f.id by simp [metaSelB, hr]]
      rw [ih]
      rw [List.filter_cons_of_pos (by simpa using hr), getLast?_cons_eq]
      cases (fs.filter (fun f => reservedNameB f.name)).getLast? with
      | none => rfl
      | some g => rfl
    · rw [show metaSelB (f :: fs) i = metaSelB fs i by simp [metaSelB, hr]]
      rw [ih, List.filter_cons_of_neg (by simpa using hr)]

/-! ## Aggregation: only fully processed folders contribute -/

lemma foldl_getItemsStepEx (srv : DriveService) :
    ∀ (folders : List DriveFile) (acc : List Item),
      folders.foldl (getItemsStepEx srv) acc = acc ++ folders.filterMap (okItemEx srv) := by
  intro folders
  induction folders with
  | nil => intro acc; simp
  | cons f fs ih =>
    intro acc
    rcases hp : processItemFolderEx srv f.id f.name with ⟨item, err⟩
    cases err with
    | none =>
      have hstep : getItemsStepEx srv acc f = acc ++ [item] := by
        unfold getItemsStepEx; rw [hp]
      have hok : okItemEx srv f = some item := by
        unfold okItemEx; rw [hp]
      rw [List.foldl_cons, List.filterMap_cons, hstep, hok, ih]
      simp
    | some e =>
      have hstep : getItemsStepEx srv acc f = acc := by
        unfold getItemsStepEx; rw [hp]
      have hok : okItemEx srv f = none := by
        unfold okItemEx; rw [hp]
      rw [List.foldl_cons, List.filterMap_cons, hstep, hok, ih]

lemma foldl_getItemsStepB (srv : DriveService) :
    ∀ (folders : List DriveFile) (acc : List ItemB),
      folders.foldl (getItemsStepB srv) acc = acc ++ folders.filterMap (okItemB srv) := by
  intro folders
  induction folders with
  | nil => intro acc; simp
  | cons f fs ih =>
    intro acc
    rcases hp : processItemFolderB srv f.id f.name with ⟨item, err⟩
    cases err with
    | none =>
      have hstep : getItemsStepB srv acc f = acc ++ [item] := by
        unfold getItemsStepB; rw [hp]
      have hok : okItemB srv f = some item := by
        unfold okItemB; rw [hp]
      rw [List.foldl_cons, List.filterMap_cons, hstep, hok, ih]
      simp
    | some e =>
      have hstep : getItemsStepB srv acc f = acc := by
        unfold getItemsStepB; rw [hp]
      have hok : okItemB srv f = none := by
        unfold okItemB; rw [hp]
      rw [List.foldl_cons, List.filterMap_cons, hstep, hok, ih]

lemma getItemsEx_eq (srv : DriveService) (root : String) (folders : List DriveFile)
    (h : srv.listChildFolders root = .ok folders) :
    getItemsEx srv root = .ok (folders.filterMap (okItemEx srv)) := by
  unfold getItemsEx
  rw [h]
  dsimp only
  rw [foldl_getItemsStepEx srv folders []]
  simp

lemma getItemsB_eq (srv : DriveService) (root : String) (folders : List DriveFile)
    (h : srv.listChildFolders root = .ok folders) :
    getItemsB srv root = .ok (folders.filterMap (okItemB srv)) := by
  unfold getItemsB
  rw [h]
  dsimp only
  rw [foldl_getItemsStepB srv folders []]
  simp

lemma processItemFolderEx_urls (srv : DriveService) (fid nm : String)
    (files : List DriveFile) (h : srv.listFiles fid = .ok files) :
    (processItemFolderEx srv fid nm).1.imageUrls = imgUrlsOfEx files ∧
    (processItemFolderEx srv fid nm).1.videoUrls = vidUrlsOfEx files := by
  have hpf := processFilesEx_eq files
  rcases hms : metaSelEx files ("", "") with ⟨mid, mnm⟩
  rw [hms] at hpf
  unfold processItemFolderEx
  rw [h]
  dsimp only
  rw [hpf]
  by_cases hm : mid = ""
  · simp [hm]
  · simp only [hm]
    rcases hr : readMetadataEx srv mid mnm with e | md <;> simp [hr, hm]

lemma processItemFolderB_urls (srv : DriveService) (fid nm : String)
    (files : List DriveFile) (h : srv.listFiles fid = .ok files) :
    (processItemFolderB srv fid nm).1.imageUrls = imgUrlsOfB files := by
  have hpf := processFilesB_eq files
  unfold processItemFolderB
  rw [h]
  dsimp only
  rw [hpf]
  by_cases hm : metaSelB files "" = ""
  · simp [hm]
  · simp only [hm]
    rcases hr : readMetadataB srv (metaSelB files "") with e | md <;> simp [hr, hm]

lemma isImage_isVideo_disjoint : ∀ m, isImage m = true → isVideo m = false := by
  intro m h
  have hm : m = "image/jpeg" ∨ m = "image/jpg" ∨ m = "image/png" ∨
      m = "image/gif" ∨ m = "image/webp" ∨ m = "image/bmp" := by
    unfold isImage at h
    simp only [Bool.or_eq_true, decide_eq_true_eq] at h
    tauto
  rcases hm with h | h | h | h | h | h <;> subst h <;> decide

lemma length_filter_disjoint_le {α : Type} (p q : α → Bool)
    (h : ∀ x, p x = true → q x = false) :
    ∀ l : List α, (l.filter p).length + (l.filter q).length ≤ l.length := by
  intro l
  induction l with
  | nil => simp
  | cons x t ih =>
    by_cases hp : p x = true
    · have hq := h x hp
      simp only [List.filter_cons, hp, hq, if_true, if_false, Bool.false_eq_true,
        List.length_cons]
      omega
    · have hp' : p x = false := by revert hp; cases p x <;> simp
      by_cases hq : q x = true
      · simp only [List.filter_cons, hp', hq, if_true, if_false, Bool.false_eq_true,
          List.length_cons]
        omega
      · have hq' : q x = false := by revert hq; cases q x <;> simp
        simp only [List.filter_cons, hp', hq', Bool.false_eq_true, if_false,
          List.length_cons]
        omega

/-! ## Claim theorems -/

/-- C7: URL derivation is pure and deterministic: the image URL is the
public-view template followed by the file id and the video URL wraps the id
in the preview-player template; in particular the id `"abc123"` yields
`https://drive.google.com/uc?export=view&id=abc123` and `"xyz"` yields
`https://drive.google.com/file/d/xyz/preview`. -/
theorem url_derivation_pure :
    (∀ s, getImageURL s = "https://drive.google.com/uc?export=view&id=" ++ s ∧
          getVideoURL s = "https://drive.google.com/file/d/" ++ s ++ "/preview")
    ∧ getImageURL "abc123" = "https://drive.google.com/uc?export=view&id=abc123"
    ∧ getVideoURL "xyz" = "https://drive.google.com/file/d/xyz/preview" :=
  ⟨fun _ => ⟨rfl, rfl⟩, by decide, by decide⟩

/-- C10: the recognized image MIME set and video MIME set are disjoint —
`isImage` and `isVideo` are never both true — so each file of a listing
contributes at most one URL entry across `imageUrls` and `videoUrls`. -/
theorem image_video_mime_disjoint :
    (∀ m, (isImage m && isVideo m) = false)
    ∧ (∀ files : List DriveFile,
        (processFilesEx files).1.imageUrls.length +
          (processFilesEx files).1.videoUrls.length ≤ files.length) := by
  constructor
  · intro m
    by_cases h : isImage m = true
    · have hv := isImage_isVideo_disjoint m h
      simp [h, hv]
    · have h' : isImage m = false := by revert h; cases isImage m <;> simp
      simp [h']
  · intro files
    rw [processFilesEx_eq]
    simp only [imgUrlsOfEx, vidUrlsOfEx, List.length_map]
    apply length_filter_disjoint_le
    intro f hf
    rw [Bool.and_eq_true] at hf
    have hv := isImage_isVideo_disjoint _ hf.2
    simp [hv]

/-- C3: with a successful file listing, `imageUrls` holds exactly one entry
per non-metadata-named file with an image MIME type, in listing order, and
(extended variant) `videoUrls` one entry per video-MIME file; other files
contribute nothing.  On a folder with MIME types image/png, video/mp4 and
application/pdf and no metadata file, the extended item has exactly one
image URL and one video URL, the basic item exactly one image URL, and every
metadata field is the empty string. -/
theorem classification_by_mime :
    (∀ (srv : DriveService) (fid nm : String) (files : List DriveFile),
      srv.listFiles fid = .ok files →
        (processItemFolderEx srv fid nm).1.imageUrls = imgUrlsOfEx files ∧
        (processItemFolderEx srv fid nm).1.videoUrls = vidUrlsOfEx files ∧
        (processItemFolderB srv fid nm).1.imageUrls = imgUrlsOfB files)
    ∧ processItemFolderEx svcMixed "f1" "Item 1" =
        ({ title := "", subtitle := "", description := "", code := "",
           imageUrls := ["https://drive.google.com/uc?export=view&id=p1"],
           videoUrls := ["https://drive.google.com/file/d/v1/preview"] }, none)
    ∧ processItemFolderB svcMixed "f1" "Item 1" =
        ({ title := "", subtitle := "", description := "", code := "",
           imageUrls := ["https://drive.google.com/uc?export=view&id=p1"] }, none) := by
  refine ⟨fun srv fid nm files h => ?_, by decide, by decide⟩
  exact ⟨(processItemFolderEx_urls srv fid nm files h).1,
         (processItemFolderEx_urls srv fid nm files h).2,
         processItemFolderB_urls srv fid nm files h⟩

/-- Witness for C3 at the mixed-MIME fixture: the listing hypothesis holds
by computation and the classification equations follow. -/
theorem classification_by_mime_witness :
    (processItemFolderEx svcMixed "f1" "Item 1").1.imageUrls = imgUrlsOfEx filesMixed ∧
    (processItemFolderEx svcMixed "f1" "Item 1").1.videoUrls = vidUrlsOfEx filesMixed ∧
    (processItemFolderB svcMixed "f1" "Item 1").1.imageUrls = imgUrlsOfB filesMixed :=
  classification_by_mime.1 svcMixed "f1" "Item 1" filesMixed rfl

/-- C9: a file bearing a reserved metadata name contributes no entry to
`imageUrls` or `videoUrls` even when its MIME type is in the image or video
set: dropping such a file from anywhere in the listing leaves both URL lists
unchanged (basic variant: a `metadata.txt`-named file and `imageUrls`). -/
theorem reserved_file_never_classified :
    (∀ (l₁ l₂ : List DriveFile) (f : DriveFile), reservedNameEx f.name = true →
      (processFilesEx (l₁ ++ f :: l₂)).1.imageUrls =
        (processFilesEx (l₁ ++ l₂)).1.imageUrls ∧
      (processFilesEx (l₁ ++ f :: l₂)).1.videoUrls =
        (processFilesEx (l₁ ++ l₂)).1.videoUrls)
    ∧ (∀ (l₁ l₂ : List DriveFile) (f : DriveFile), reservedNameB f.name = true →
      (processFilesB (l₁ ++ f :: l₂)).1.imageUrls =
        (processFilesB (l₁ ++ l₂)).1.imageUrls) := by
  constructor
  · intro l₁ l₂ f hr
    rw [processFilesEx_eq, processFilesEx_eq]
    constructor <;>
      simp [imgUrlsOfEx, vidUrlsOfEx, List.filter_append, List.filter_cons, hr]
  · intro l₁ l₂ f hr
    rw [processFilesB_eq, processFilesB_eq]
    simp [imgUrlsOfB, List.filter_append, List.filter_cons, hr]

/-- Witness for C9: a `metadata.txt`-named file whose MIME type is
image/png contributes nothing next to a real image file. -/
theorem reserved_file_never_classified_witness :
    ((processFilesEx ([⟨"p1", "a.png", "image/png"⟩] ++
        ⟨"x", "metadata.txt", "image/png"⟩ :: [])).1.imageUrls =
      (processFilesEx ([⟨"p1", "a.png", "image/png"⟩] ++ [])).1.imageUrls ∧
     (processFilesEx ([⟨"p1", "a.png", "image/png"⟩] ++
        ⟨"x", "metadata.txt", "image/png"⟩ :: [])).1.videoUrls =
      (processFilesEx ([⟨"p1", "a.png", "image/png"⟩] ++ [])).1.videoUrls)
    ∧ (processFilesB ([⟨"p1", "a.png", "image/png"⟩] ++
        ⟨"x", "metadata.txt", "image/png"⟩ :: [])).1.imageUrls =
      (processFilesB ([⟨"p1", "a.png", "image/png"⟩] ++ [])).1.imageUrls :=
  ⟨reserved_file_never_classified.1 [⟨"p1", "a.png", "image/png"⟩] []
      ⟨"x", "metadata.txt", "image/png"⟩ (by decide),
   reserved_file_never_classified.2 [⟨"p1", "a.png", "image/png"⟩] []
      ⟨"x", "metadata.txt", "image/png"⟩ (by decide)⟩

/-- C6: when several files of a listing bear a reserved metadata filename,
the loop's metadata candidate is the last such file in listing order (each
later match overwrites the earlier one), in both variants; and with a
successful listing the extended variant reads exactly that file — its id
and name are what `readMetadata` receives. -/
theorem duplicate_metadata_last_wins :
    (∀ files : List DriveFile,
      (processFilesEx files).2 =
        (match (files.filter (fun f => reservedNameEx f.name)).getLast? with
         | some f => (f.id, f.name)
         | none => ("", "")) ∧
      (processFilesB files).2 =
        (match (files.filter (fun f => reservedNameB f.name)).getLast? with
         | some f => f.id
         | none => ""))
    ∧ (∀ (srv : DriveService) (fid nm : String) (files : List DriveFile)
         (f : DriveFile),
        srv.listFiles fid = .ok files →
        (files.filter (fun g => reservedNameEx g.name)).getLast? = some f →
        f.id ≠ "" →
        processItemFolderEx srv fid nm =
          (match readMetadataEx srv f.id f.name with
           | .error e =>
             ((processFilesEx files).1, some ("error reading metadata: " ++ e))
           | .ok md =>
             ({ (processFilesEx files).1 with
                title := mapGetD md "title", subtitle := mapGetD md "subtitle",
                description := mapGetD md "description",
                code := mapGetD md "code" }, none))) := by
  constructor
  · intro files
    constructor
    · have h1 : (processFilesEx files).2 = metaSelEx files ("", "") := by
        rw [processFilesEx_eq]
      rw [h1, metaSelEx_eq_last]
    · have h1 : (processFilesB files).2 = metaSelB files "" := by
        rw [processFilesB_eq]
      rw [h1, metaSelB_eq_last]
  · intro srv fid nm files f h hlast hid
    have hsel : metaSelEx files ("", "") = (f.id, f.name) := by
      rw [metaSelEx_eq_last, hlast]
    have hpf := processFilesEx_eq files
    rw [hsel] at hpf
    unfold processItemFolderEx
    rw [h]
    dsimp only
    rw [hpf]
    simp only [hid, ne_eq, not_false_iff, if_true]

/-- Witness for C6 at the duplicate-metadata fixture: the candidate is the
second `metadata.txt` file and the parsed title comes from its content. -/
theorem duplicate_metadata_last_wins_witness :
    (processFilesEx filesDupMeta).2 =
      (match (filesDupMeta.filter (fun f => reservedNameEx f.name)).getLast? with
       | some f => (f.id, f.name)
       | none => ("", "")) ∧
    processItemFolderEx svcDupMeta "f1" "Item 1" =
      ({ title := "Second", subtitle := "", description := "", code := "",
         imageUrls := ["https://drive.google.com/uc?export=view&id=p1"],
         videoUrls := [] }, none) := by
  constructor
  · exact (duplicate_metadata_last_wins.1 filesDupMeta).1
  · exact (duplicate_metadata_last_wins.2 svcDupMeta "f1" "Item 1" filesDupMeta
      ⟨"m2", "metadata.txt", "text/plain"⟩ rfl rfl (by decide)).trans rfl

/-- C8: with a successful root listing, the result is exactly the sequence
of per-folder contributions of the folders whose processing reported no
error, in listing order — so no partial item is ever returned, and every
returned item is the complete output of a fully successful processing
run. -/
theorem no_partial_item_in_result :
    ∀ (srv : DriveService) (root : String) (folders : List DriveFile),
      srv.listChildFolders root = .ok folders →
      getItemsEx srv root = .ok (folders.filterMap (okItemEx srv)) ∧
      getItemsB srv root = .ok (folders.filterMap (okItemB srv)) ∧
      (∀ items, getItemsEx srv root = .ok items →
        ∀ it ∈ items, ∃ f ∈ folders,
          processItemFolderEx srv f.id f.name = (it, none)) := by
  intro srv root folders h
  refine ⟨getItemsEx_eq srv root folders h, getItemsB_eq srv root folders h, ?_⟩
  intro items hitems it hit
  rw [getItemsEx_eq srv root folders h] at hitems
  simp only [Except.ok.injEq] at hitems
  subst hitems
  rw [List.mem_filterMap] at hit
  obtain ⟨f, hf, hok⟩ := hit
  refine ⟨f, hf, ?_⟩
  unfold okItemEx at hok
  rcases hp : processItemFolderEx srv f.id f.name with ⟨itm, err⟩
  rw [hp] at hok
  cases err with
  | none =>
    simp only [Option.some.injEq] at hok
    rw [hok]
  | some e => simp at hok

/-- Witness for C8 at the three-folder fixture where the second folder's
file listing fails: both results hold exactly the first and third items. -/
theorem no_partial_item_in_result_witness :
    getItemsEx svcThreeFolders "root" = .ok
      [{ title := "", subtitle := "", description := "", code := "",
         imageUrls := ["https://drive.google.com/uc?export=view&id=p-f1"],
         videoUrls := [] },
       { title := "", subtitle := "", description := "", code := "",
         imageUrls := ["https://drive.google.com/uc?export=view&id=p-f3"],
         videoUrls := [] }] ∧
    getItemsB svcThreeFolders "root" = .ok
      [{ title := "", subtitle := "", description := "", code := "",
         imageUrls := ["https://drive.google.com/uc?export=view&id=p-f1"] },
       { title := "", subtitle := "", description := "", code := "",
         imageUrls := ["https://drive.google.com/uc?export=view&id=p-f3"] }] :=
  ⟨((no_partial_item_in_result svcThreeFolders "root"
      [⟨"f1", "Item 1", "application/vnd.google-apps.folder"⟩,
       ⟨"f2", "Item 2", "application/vnd.google-apps.folder"⟩,
       ⟨"f3", "Item 3", "application/vnd.google-apps.folder"⟩] rfl).1).trans rfl,
   ((no_partial_item_in_result svcThreeFolders "root"
      [⟨"f1", "Item 1", "application/vnd.google-apps.folder"⟩,
       ⟨"f2", "Item 2", "application/vnd.google-apps.folder"⟩,
       ⟨"f3", "Item 3", "application/vnd.google-apps.folder"⟩] rfl).2.1).trans rfl⟩

/-- C2, demonstrated at concrete fixtures.  With three child folders of
which the second fails, both variants drop that folder's item, keep the
first and third in order, and answer with status 200.  But when the root
folder listing itself fails, only the extended variant answers 500: the
basic variant encodes the error body before calling `WriteHeader`, so the
status actually sent is the implicit 200 of the body write — the
`WriteHeader(500)` that follows is ignored by `net/http`. -/
theorem root_listing_failure_demo :
    (handlerEx worldThreeFolders reqGet).finalStatus = 200 ∧
    (handlerEx worldThreeFolders reqGet).body =
      [{ items :=
          [{ title := "", subtitle := "", description := "", code := "",
             imageUrls := ["https://drive.google.com/uc?export=view&id=p-f1"],
             videoUrls := [] },
           { title := "", subtitle := "", description := "", code := "",
             imageUrls := ["https://drive.google.com/uc?export=view&id=p-f3"],
             videoUrls := [] }],
         error := "" }] ∧
    (handlerB worldThreeFolders reqGet).finalStatus = 200 ∧
    (handlerEx worldRootFails reqGet).finalStatus = 500 ∧
    (handlerEx worldRootFails reqGet).body =
      [{ items := [], error := "error listing folders: boom" }] ∧
    (handlerB worldRootFails reqGet).finalStatus = 200 ∧
    (handlerB worldRootFails reqGet).body =
      [{ items := [], error := "error listing folders: boom" }] :=
  ⟨rfl, rfl, rfl, rfl, rfl, rfl, rfl⟩

/-- C4 counterexample: with no `folderId` parameter and no environment
default, the bytes on the wire are NOT exactly
`\x7b"error":"Folder ID is required"\x7d`: the `Items` field has no
`omitempty`, so the nil slice is marshalled as `"items":null` and the
encoder appends a newline; moreover the basic variant's status is 200, not
400, because it encodes the body before calling `WriteHeader`. -/
theorem missing_folder_id_cex :
    bodyBytesEx (handlerEx worldNoFolder reqGet) ≠
      "\x7b\"error\":\"Folder ID is required\"\x7d" ∧
    (handlerB worldNoFolder reqGet).finalStatus = 200 ∧
    (handlerEx worldNoFolder reqGet).finalStatus = 400 ∧
    bodyBytesEx (handlerEx worldNoFolder reqGet) =
      "\x7b\"items\":null,\"error\":\"Folder ID is required\"\x7d\n" :=
  ⟨by decide, rfl, rfl, rfl⟩

/-- C4 as amended: on a `GET` request with neither a `folderId` query
parameter nor an environment default, the handler answers before any remote
call (the response is the same for every service constructor) with body
exactly `\x7b"items":null,"error":"Folder ID is required"\x7d` plus the
encoder's newline; the extended variant's status is 400, while the basic
variant's is 200 because its body write precedes `WriteHeader(400)`. -/
theorem missing_folder_id_amended :
    ∀ (w : World) (r : Request), r.method = "GET" → r.folderIdParam = "" →
      w.envFolderId = "" →
      (handlerEx w r).finalStatus = 400 ∧
      bodyBytesEx (handlerEx w r) =
        "\x7b\"items\":null,\"error\":\"Folder ID is required\"\x7d\n" ∧
      (handlerB w r).finalStatus = 200 ∧
      bodyBytesB (handlerB w r) =
        "\x7b\"items\":null,\"error\":\"Folder ID is required\"\x7d\n" := by
  intro w r hm hp he
  obtain ⟨m, p⟩ := r
  simp only [Request.method] at hm
  simp only [Request.folderIdParam] at hp
  subst hm
  subst hp
  have hEx : handlerEx w ⟨"GET", ""⟩ =
      (rwInit.goWriteHeader 400).goEncode
        { items := [], error := "Folder ID is required" } := by
    unfold handlerEx
    simp [he]
  have hB : handlerB w ⟨"GET", ""⟩ =
      (rwInit.goEncode
        { items := [], error := "Folder ID is required" }).goWriteHeader 400 := by
    unfold handlerB
    simp [he]
  rw [hEx, hB]
  exact ⟨rfl, rfl, rfl, rfl⟩

/-- Witness for the amended C4 at a concrete environment and request. -/
theorem missing_folder_id_amended_witness :
    (handlerEx worldNoFolder reqGet).finalStatus = 400 ∧
    bodyBytesEx (handlerEx worldNoFolder reqGet) =
      "\x7b\"items\":null,\"error\":\"Folder ID is required\"\x7d\n" ∧
    (handlerB worldNoFolder reqGet).finalStatus = 200 ∧
    bodyBytesB (handlerB worldNoFolder reqGet) =
      "\x7b\"items\":null,\"error\":\"Folder ID is required\"\x7d\n" :=
  missing_folder_id_amended worldNoFolder reqGet rfl rfl rfl

/-! ## Variant equivalence away from videos and docx metadata -/

lemma reservedName_agree {n : String} (hd : n ≠ "metadata.docx") :
    reservedNameEx n = reservedNameB n := by
  unfold reservedNameEx reservedNameB
  simp [hd]

lemma imgUrls_agree {files : List DriveFile}
    (hf : ∀ f ∈ files, isVideo f.mimeType = false ∧ f.name ≠ "metadata.docx") :
    imgUrlsOfB files = imgUrlsOfEx files := by
  unfold imgUrlsOfB imgUrlsOfEx
  congr 1
  apply List.filter_congr
  intro f hmem
  rw [reservedName_agree (hf f hmem).2]

lemma vidUrls_nil {files : List DriveFile}
    (hf : ∀ f ∈ files, isVideo f.mimeType = false ∧ f.name ≠ "metadata.docx") :
    vidUrlsOfEx files = [] := by
  unfold vidUrlsOfEx
  have h : files.filter (fun f => !reservedNameEx f.name && isVideo f.mimeType) = [] :=
    List.filter_eq_nil_iff.2 (fun f hmem => by simp [(hf f hmem).1])
  rw [h]
  rfl

lemma metaSel_agree {files : List DriveFile}
    (hf : ∀ f ∈ files, isVideo f.mimeType = false ∧ f.name ≠ "metadata.docx") :
    (metaSelEx files ("", "")).1 = metaSelB files "" ∧
    (metaSelEx files ("", "") = ("", "") ∨
      (metaSelEx files ("", "")).2 = "metadata.txt") := by
  rw [metaSelEx_eq_last, metaSelB_eq_last]
  have hfilter : files.filter (fun f => reservedNameEx f.name) =
      files.filter (fun f => reservedNameB f.name) :=
    List.filter_congr (fun f hmem => reservedName_agree (hf f hmem).2)
  rw [hfilter]
  cases hlast : (files.filter (fun f => reservedNameB f.name)).getLast? with
  | none => exact ⟨rfl, Or.inl rfl⟩
  | some g =>
    have hg : g ∈ files.filter (fun f => reservedNameB f.name) :=
      List.mem_of_getLast?_eq_some hlast
    have hres : reservedNameB g.name = true := (List.mem_filter.1 hg).2
    have hname : g.name = "metadata.txt" := by
      unfold reservedNameB at hres
      exact of_decide_eq_true hres
    exact ⟨rfl, Or.inr hname⟩

lemma readMetadata_agree (srv : DriveService) (mid : String) :
    readMetadataEx srv mid "metadata.txt" = readMetadataB srv mid := by
  unfold readMetadataEx readMetadataB
  cases hd : srv.download mid with
  | error e => rfl
  | ok body =>
    have hx : goHasSuffix (goToLower "metadata.txt") ".docx" = false := by decide
    simp [hx]

lemma processItemFolder_agree (srv : DriveService) (hsvc : SvcNoVideoNoDocx srv)
    (fid nm : String) :
    dropVideos (processItemFolderEx srv fid nm).1 =
      (processItemFolderB srv fid nm).1 ∧
    (processItemFolderEx srv fid nm).2 = (processItemFolderB srv fid nm).2 := by
  unfold processItemFolderEx processItemFolderB
  cases hl : srv.listFiles fid with
  | error e => exact ⟨rfl, rfl⟩
  | ok files =>
    have hf := hsvc fid files hl
    rcases hmsel : metaSelEx files ("", "") with ⟨midE, mnmE⟩
    have hpe := processFilesEx_eq files
    rw [hmsel] at hpe
    obtain ⟨hm1, hm2⟩ := metaSel_agree hf
    rw [hmsel] at hm1 hm2
    dsimp only
    rw [hpe, processFilesB_eq files, ← hm1]
    dsimp only
    by_cases hmid0 : midE = ""
    · simp only [hmid0, ne_eq, not_true_eq_false, if_false, ite_false]
      refine ⟨?_, trivial⟩
      simp [dropVideos, itemZero, itemZeroB, imgUrls_agree hf]
    · rcases hm2 with h2 | h2
      · exact absurd (congrArg Prod.fst h2) hmid0
      · dsimp only at h2
        subst h2
        simp only [hmid0, ne_eq, not_false_iff, if_true]
        rw [readMetadata_agree srv midE]
        cases hr : readMetadataB srv midE with
        | error e =>
          refine ⟨?_, rfl⟩
          simp [dropVideos, itemZero, itemZeroB, imgUrls_agree hf]
        | ok md =>
          refine ⟨?_, rfl⟩
          simp [dropVideos, itemZero, itemZeroB, imgUrls_agree hf]

lemma okItem_agree (srv : DriveService) (hsvc : SvcNoVideoNoDocx srv)
    (f : DriveFile) :
    okItemB srv f = (okItemEx srv f).map dropVideos := by
  obtain ⟨h1, h2⟩ := processItemFolder_agree srv hsvc f.id f.name
  unfold okItemB okItemEx
  rcases hpe : processItemFolderEx srv f.id f.name with ⟨itE, errE⟩
  rcases hpb : processItemFolderB srv f.id f.name with ⟨itB, errB⟩
  rw [hpe, hpb] at h1 h2
  dsimp only at h1 h2
  subst h2
  cases errE with
  | none => simp [← h1]
  | some e => simp

lemma getItems_agree (srv : DriveService) (hsvc : SvcNoVideoNoDocx srv)
    (root : String) :
    getItemsB srv root = Except.map (List.map dropVideos) (getItemsEx srv root) := by
  cases hl : srv.listChildFolders root with
  | error e =>
    unfold getItemsEx getItemsB
    rw [hl]
    rfl
  | ok folders =>
    rw [getItemsEx_eq srv root folders hl, getItemsB_eq srv root folders hl]
    simp only [Except.map]
    congr 1
    rw [List.map_filterMap]
    have hfun : okItemB srv = fun f => (okItemEx srv f).map dropVideos :=
      funext (okItem_agree srv hsvc)
    rw [hfun]

/-- C5 counterexample: on a `GET` request with no folder id configured — an
input involving no video-typed file and no `metadata.docx` — the two
variants do NOT produce the same response: the bodies agree (modulo the
`videoUrls` field) but the extended variant answers status 400 while the
basic variant answers status 200, because the basic variant writes the body
before `WriteHeader` on its error paths. -/
theorem variants_not_equal_cex :
    (handlerEx worldNoFolder reqGet).finalStatus = 400 ∧
    (handlerB worldNoFolder reqGet).finalStatus = 200 ∧
    (handlerEx worldNoFolder reqGet).body.map dropVideosResponse =
      (handlerB worldNoFolder reqGet).body :=
  ⟨rfl, rfl, rfl⟩

/-- C5 as amended: on any environment whose services list no video-typed
file and no file named `metadata.docx`, and any request, the two variants
write the same response bodies modulo the `videoUrls` field; their status
codes either agree or — on the error paths, where the basic variant encodes
the body before calling `WriteHeader` — the basic variant reports 200 where
the extended variant reports a non-200 status. -/
theorem variants_equiv_modulo_videoUrls :
    ∀ (w : World) (r : Request), NoVideoNoDocx w →
      (handlerEx w r).body.map dropVideosResponse = (handlerB w r).body ∧
      ((handlerEx w r).finalStatus = (handlerB w r).finalStatus ∨
        ((handlerB w r).finalStatus = 200 ∧
         (handlerEx w r).finalStatus ≠ 200)) := by
  intro w r hw
  unfold handlerEx handlerB
  by_cases h1 : r.method = "OPTIONS"
  · rw [if_pos h1, if_pos h1]
    exact ⟨rfl, Or.inl rfl⟩
  · rw [if_neg h1, if_neg h1]
    by_cases h2 : r.method = "GET"
    · have h2' : ¬(r.method ≠ "GET") := fun hh => hh h2
      rw [if_neg h2', if_neg h2']
      dsimp only
      by_cases h3 : (if r.folderIdParam = "" then w.envFolderId
          else r.folderIdParam) = ""
      · rw [if_pos h3, if_pos h3]
        exact ⟨rfl, Or.inr ⟨rfl, by decide⟩⟩
      · rw [if_neg h3, if_neg h3]
        by_cases h4 : w.envCredentials = ""
        · rw [if_pos h4, if_pos h4]
          exact ⟨rfl, Or.inr ⟨rfl, by decide⟩⟩
        · rw [if_neg h4, if_neg h4]
          cases h5 : w.newService w.envCredentials with
          | error e =>
            exact ⟨rfl, Or.inr ⟨rfl, fun hc => (by decide : ¬((500 : Nat) = 200)) hc⟩⟩
          | ok srv =>
            dsimp only
            have hsvc := hw _ _ h5
            have hgi := getItems_agree srv hsvc
              (if r.folderIdParam = "" then w.envFolderId else r.folderIdParam)
            cases h6 : getItemsEx srv
                (if r.folderIdParam = "" then w.envFolderId
                 else r.folderIdParam) with
            | error e =>
              rw [h6] at hgi
              simp only [Except.map] at hgi
              rw [hgi]
              exact ⟨rfl, Or.inr ⟨rfl, fun hc => (by decide : ¬((500 : Nat) = 200)) hc⟩⟩
            | ok items =>
              rw [h6] at hgi
              simp only [Except.map] at hgi
              rw [hgi]
              exact ⟨rfl, Or.inl rfl⟩
    · have h2'' : r.method ≠ "GET" := h2
      rw [if_pos h2'', if_pos h2'']
      exact ⟨rfl, Or.inr ⟨rfl, by decide⟩⟩

/-- Witness for the amended C5 at a working video-free fixture: the item
pipeline runs and the two variants agree. -/
theorem variants_equiv_modulo_videoUrls_witness :
    (handlerEx worldNoVideo reqGet).body.map dropVideosResponse =
      (handlerB worldNoVideo reqGet).body ∧
    ((handlerEx worldNoVideo reqGet).finalStatus =
        (handlerB worldNoVideo reqGet).finalStatus ∨
      ((handlerB worldNoVideo reqGet).finalStatus = 200 ∧
       (handlerEx worldNoVideo reqGet).finalStatus ≠ 200)) :=
  variants_equiv_modulo_videoUrls worldNoVideo reqGet (by
    intro creds srv h
    injection h with h
    subst h
    intro fid files hfl
    injection hfl with hfl
    subst hfl
    decide)

end PageBackend
